import Mathlib

/-!
Shallow embedding of `src/vm.py` (MichaelSquires/synacor-challenge), a virtual
machine for the Synacor 15-bit-word ISA, together with proofs settling the
frozen claims about its natural-language specification.

Modelling conventions:
* Python's arbitrary-precision non-negative integers become `Nat`.
* Memory is held by the Python code as a byte string manipulated with
  `struct.pack`/`struct.unpack` on 16-bit little-endian words; we model it
  word-wise as a `List Nat` (the byte string has even length for a word image),
  translating each byte-slice operation to its word-level counterpart.
* Exceptions become an explicit `VMError` error type threaded with `Except`.
  Each constructor is documented with the Python exception it models.
* `sys.stdout` becomes an `output` field accumulating emitted character codes;
  `sys.stdin` becomes a pending character buffer (`_stdin` in the source) plus
  a list of remaining upstream lines; a `readline` on an exhausted upstream
  yields the empty string, exactly as `sys.stdin.readline()` does at EOF.
-/

namespace SynacorVM

/-- The 8-slot register bank: the Python dict
`{'r0': 0, ..., 'r7': 0}` built in `VirtualMachine.__init__`. -/
structure Registers where
  r0 : Nat
  r1 : Nat
  r2 : Nat
  r3 : Nat
  r4 : Nat
  r5 : Nat
  r6 : Nat
  r7 : Nat
deriving Repr, DecidableEq

/-- All registers start at 0 (`VirtualMachine.__init__`). -/
def Registers.init : Registers := ⟨0, 0, 0, 0, 0, 0, 0, 0⟩

/-- Errors the VM can raise.  Each constructor records which Python exception
the source actually raises at that point. -/
inductive VMError where
  /-- `InvalidReadError` raised by `readMemory` when `words == 0 or words > 2**15`. -/
  | invalidRead (words address : Nat)
  /-- `InvalidValueError` raised by `getValueOrReg` for an operand above 32775. -/
  | invalidValue (value : Nat)
  /-- `InvalidArgumentsError` raised by `Instruction.__init__` on an operand
  count mismatch (unreachable through `decode`, which always reads `ARGS` words). -/
  | invalidArguments (expected got : Nat)
  /-- The `else` branch of `setRegister` executes `raise InvalidRegisterError(...)`,
  but no class of that name is defined anywhere in `vm.py`, so evaluating the
  name itself raises `NameError`; the intended message is never built. -/
  | nameErrorInvalidRegister (reg : Nat)
  /-- `IndexError` from `self._stack.pop()` on an empty list — the
  stack-underflow condition. -/
  | stackUnderflow
  /-- `IndexError` from `self._stdin[0]` when the buffer is empty and
  `sys.stdin.readline()` returned the empty string (EOF). -/
  | indexError
  /-- `struct.error`: either `struct.unpack` in `readMemory` received a byte
  slice shorter than `2*words`, or `struct.pack('<H', data)` in `writeMemory`
  was given `data` outside `[0, 65535]`. -/
  | structError
  /-- `KeyError` from the registry lookup `cls[opcode]` in `Instruction.decode`
  for an opcode with no registered instruction class. -/
  | keyError (opcode : Nat)
  /-- `ZeroDivisionError` from `%` with a zero right-hand side in `Mod.exec`. -/
  | zeroDivision
  /-- `ValueError` from `chr(v)` in `Out.exec` when `v > 0x10FFFF`. -/
  | chrValueError (value : Nat)
deriving Repr, DecidableEq

/-- `VirtualMachine.getValueOrReg`: a literal in `[0, 32767]` denotes itself,
`32768 + i` denotes register `i` for `i < 8`, anything else raises
`InvalidValueError`.  The Python method only reads `self._registers`; it is a
pure function of the register bank. -/
def getValueOrReg (r : Registers) (value : Nat) : Except VMError Nat :=
  if value ≤ 32767 then .ok value
  else if value = 32768 then .ok r.r0
  else if value = 32769 then .ok r.r1
  else if value = 32770 then .ok r.r2
  else if value = 32771 then .ok r.r3
  else if value = 32772 then .ok r.r4
  else if value = 32773 then .ok r.r5
  else if value = 32774 then .ok r.r6
  else if value = 32775 then .ok r.r7
  else .error (.invalidValue value)

/-- The register slot selected by index `i` (`r0` ... `r7`), the word the
source reads out of its register dict for operand `32768 + i`. -/
def regSlot (r : Registers) : Nat → Nat
  | 0 => r.r0
  | 1 => r.r1
  | 2 => r.r2
  | 3 => r.r3
  | 4 => r.r4
  | 5 => r.r5
  | 6 => r.r6
  | 7 => r.r7
  | _ => 0

/-- `VirtualMachine.setRegister`: stores `value` into the register named by the
raw id `reg ∈ [32768, 32775]`; any other id reaches
`raise InvalidRegisterError(...)`, whose undefined class name raises `NameError`. -/
def setRegister (r : Registers) (reg value : Nat) : Except VMError Registers :=
  if reg = 32768 then .ok { r with r0 := value }
  else if reg = 32769 then .ok { r with r1 := value }
  else if reg = 32770 then .ok { r with r2 := value }
  else if reg = 32771 then .ok { r with r3 := value }
  else if reg = 32772 then .ok { r with r4 := value }
  else if reg = 32773 then .ok { r with r5 := value }
  else if reg = 32774 then .ok { r with r6 := value }
  else if reg = 32775 then .ok { r with r7 := value }
  else .error (.nameErrorInvalidRegister reg)

/-- `VirtualMachine.readMemory`: raises `InvalidReadError` iff
`words == 0 or words > 2**15` (no check against the image extent); otherwise
`struct.unpack` of the byte slice `memory[2*address : 2*address + 2*words]`
succeeds exactly when the slice has the full `2*words` bytes, i.e. when
`address + words ≤ memory.length`, and yields the words of that slice. -/
def readMemory (memory : List Nat) (address words : Nat) : Except VMError (List Nat) :=
  if words = 0 ∨ words > 2 ^ 15 then .error (.invalidRead words address)
  else if address + words ≤ memory.length then .ok ((memory.drop address).take words)
  else .error .structError

/-- `VirtualMachine.writeMemory`: rebuilds the byte string as
`memory[:2*address] + pack('<H', data) + memory[2*address+2:]`.
`struct.pack('<H', _)` requires `data ≤ 65535`.  Word-wise this is
`take address ++ [data] ++ drop (address+1)`; note that for an address at or
past the extent this appends the word at the end rather than at `address`. -/
def writeMemory (memory : List Nat) (address data : Nat) : Except VMError (List Nat) :=
  if data < 2 ^ 16 then
    .ok (memory.take address ++ [data] ++ memory.drop (address + 1))
  else .error .structError

/-- `VirtualMachine.pop`: `self._stack.pop()` removes and returns the last
element; on an empty list Python raises `IndexError` (stack underflow). -/
def popStack (stack : List Nat) : Except VMError (Nat × List Nat) :=
  match stack.getLast? with
  | some v => .ok (v, stack.dropLast)
  | none => .error .stackUnderflow

/-- The `VirtualMachine.stdin` property: if the pending buffer is empty, pull
the next line with `sys.stdin.readline()` (at EOF this returns the empty
string); then take `buf[0]` — raising `IndexError` when the buffer is still
empty — and keep the rest.  Returns the character code, the new buffer, and
the remaining upstream lines. -/
def stdinNext (buf : List Nat) (lines : List (List Nat)) :
    Except VMError (Nat × List Nat × List (List Nat)) :=
  let p : List Nat × List (List Nat) :=
    if buf = [] then
      match lines with
      | [] => ([], [])
      | l :: rest => (l, rest)
    else (buf, lines)
  match p with
  | ([], _) => .error .indexError
  | (c :: rest, lines1) => .ok (c, rest, lines1)

/-- The machine state of `VirtualMachine`: word memory, stack, program counter,
register bank, the pending stdin buffer plus remaining upstream input lines,
the `running` flag, and the codes written so far to stdout. -/
structure VMState where
  memory : List Nat
  stack : List Nat
  pc : Nat
  registers : Registers
  stdinBuf : List Nat
  stdinLines : List (List Nat)
  running : Bool
  output : List Nat
deriving Repr, DecidableEq

/-- `VirtualMachine.__init__`: memory is the loaded image, stack empty, pc 0,
registers all zero, stdin buffer empty, running set. -/
def initVM (image : List Nat) (input : List (List Nat)) : VMState :=
  { memory := image
    stack := []
    pc := 0
    registers := Registers.init
    stdinBuf := []
    stdinLines := input
    running := true
    output := [] }

/-- `Halt` (opcode 0): clear the running flag, then the default `incpc`
still advances the pc by the instruction length 1. -/
def execHalt (s : VMState) : Except VMError VMState :=
  .ok { s with running := false, pc := s.pc + 1 }

/-- `Set` (opcode 1): `setRegister(a, getValueOrReg(b))`, default advance by 3. -/
def execSet (s : VMState) (a b : Nat) : Except VMError VMState := do
  let v ← getValueOrReg s.registers b
  let r ← setRegister s.registers a v
  return { s with registers := r, pc := s.pc + 3 }

/-- `Push` (opcode 2): `push(getValueOrReg(a))` (list append = push at the
end), default advance by 2. -/
def execPush (s : VMState) (a : Nat) : Except VMError VMState := do
  let v ← getValueOrReg s.registers a
  return { s with stack := s.stack ++ [v], pc := s.pc + 2 }

/-- `Pop` (opcode 3): pop the stack, then
`setRegister(a, getValueOrReg(popped))`, default advance by 2. -/
def execPop (s : VMState) (a : Nat) : Except VMError VMState := do
  let vs ← popStack s.stack
  let w ← getValueOrReg s.registers vs.1
  let r ← setRegister s.registers a w
  return { s with stack := vs.2, registers := r, pc := s.pc + 2 }

/-- `Eq` (opcode 4): store 1 if `resolve(b) == resolve(c)` else 0, advance 4. -/
def execEq (s : VMState) (a b c : Nat) : Except VMError VMState := do
  let vb ← getValueOrReg s.registers b
  let vc ← getValueOrReg s.registers c
  let r ← setRegister s.registers a (if vb = vc then 1 else 0)
  return { s with registers := r, pc := s.pc + 4 }

/-- `Gt` (opcode 5): store 1 if `resolve(b) > resolve(c)` else 0, advance 4. -/
def execGt (s : VMState) (a b c : Nat) : Except VMError VMState := do
  let vb ← getValueOrReg s.registers b
  let vc ← getValueOrReg s.registers c
  let r ← setRegister s.registers a (if vb > vc then 1 else 0)
  return { s with registers := r, pc := s.pc + 4 }

/-- `Jmp` (opcode 6): no effect; `incpc` sets `pc = getValueOrReg(a)`. -/
def execJmp (s : VMState) (a : Nat) : Except VMError VMState := do
  let t ← getValueOrReg s.registers a
  return { s with pc := t }

/-- `Jt` (opcode 7): `incpc` jumps to `resolve(b)` when `resolve(a) != 0`,
else the default advance by 3.  `b` is only resolved on the taken branch. -/
def execJt (s : VMState) (a b : Nat) : Except VMError VMState := do
  let va ← getValueOrReg s.registers a
  if va ≠ 0 then
    let t ← getValueOrReg s.registers b
    return { s with pc := t }
  else
    return { s with pc := s.pc + 3 }

/-- `Jf` (opcode 8): `incpc` jumps to `resolve(b)` when `resolve(a) == 0`,
else the default advance by 3. -/
def execJf (s : VMState) (a b : Nat) : Except VMError VMState := do
  let va ← getValueOrReg s.registers a
  if va = 0 then
    let t ← getValueOrReg s.registers b
    return { s with pc := t }
  else
    return { s with pc := s.pc + 3 }

/-- `Add` (opcode 9): store `(resolve(b) + resolve(c)) % 2**15`, advance 4. -/
def execAdd (s : VMState) (a b c : Nat) : Except VMError VMState := do
  let vb ← getValueOrReg s.registers b
  let vc ← getValueOrReg s.registers c
  let r ← setRegister s.registers a ((vb + vc) % 2 ^ 15)
  return { s with registers := r, pc := s.pc + 4 }

/-- `Mult` (opcode 10): store `(resolve(b) * resolve(c)) % 2**15`, advance 4. -/
def execMult (s : VMState) (a b c : Nat) : Except VMError VMState := do
  let vb ← getValueOrReg s.registers b
  let vc ← getValueOrReg s.registers c
  let r ← setRegister s.registers a ((vb * vc) % 2 ^ 15)
  return { s with registers := r, pc := s.pc + 4 }

/-- `Mod` (opcode 11): store `resolve(b) % resolve(c)`; Python `%` raises
`ZeroDivisionError` when the divisor is 0.  Advance 4. -/
def execMod (s : VMState) (a b c : Nat) : Except VMError VMState := do
  let vb ← getValueOrReg s.registers b
  let vc ← getValueOrReg s.registers c
  if vc = 0 then .error .zeroDivision
  else do
    let r ← setRegister s.registers a (vb % vc)
    return { s with registers := r, pc := s.pc + 4 }

/-- `And` (opcode 12): store `resolve(b) & resolve(c)`, advance 4. -/
def execAnd (s : VMState) (a b c : Nat) : Except VMError VMState := do
  let vb ← getValueOrReg s.registers b
  let vc ← getValueOrReg s.registers c
  let r ← setRegister s.registers a (vb &&& vc)
  return { s with registers := r, pc := s.pc + 4 }

/-- `Or` (opcode 13): store `resolve(b) | resolve(c)`, advance 4. -/
def execOr (s : VMState) (a b c : Nat) : Except VMError VMState := do
  let vb ← getValueOrReg s.registers b
  let vc ← getValueOrReg s.registers c
  let r ← setRegister s.registers a (vb ||| vc)
  return { s with registers := r, pc := s.pc + 4 }

/-- `Not` (opcode 14): store `~resolve(b) & 0x7fff`.  For a non-negative
Python integer `v`, `(~v) & 0x7fff` flips the low 15 bits, which equals
`32767 - v % 2**15`.  Advance 3. -/
def execNot (s : VMState) (a b : Nat) : Except VMError VMState := do
  let vb ← getValueOrReg s.registers b
  let r ← setRegister s.registers a (32767 - vb % 2 ^ 15)
  return { s with registers := r, pc := s.pc + 3 }

/-- `Rmem` (opcode 15): `setRegister(a, readMemory(resolve(b), 1)[0])` — the
raw memory word is stored with no re-normalisation.  Advance 3. -/
def execRmem (s : VMState) (a b : Nat) : Except VMError VMState := do
  let addr ← getValueOrReg s.registers b
  let ws ← readMemory s.memory addr 1
  let r ← setRegister s.registers a (ws.headD 0)
  return { s with registers := r, pc := s.pc + 3 }

/-- `Wmem` (opcode 16): `writeMemory(resolve(a), resolve(b))`, advance 3. -/
def execWmem (s : VMState) (a b : Nat) : Except VMError VMState := do
  let addr ← getValueOrReg s.registers a
  let v ← getValueOrReg s.registers b
  let m ← writeMemory s.memory addr v
  return { s with memory := m, pc := s.pc + 3 }

/-- `Call` (opcode 17): the effect pushes `pc + 2` (the length of the
instruction), then `incpc` sets `pc = getValueOrReg(a)`. -/
def execCall (s : VMState) (a : Nat) : Except VMError VMState := do
  let t ← getValueOrReg s.registers a
  return { s with stack := s.stack ++ [s.pc + 2], pc := t }

/-- `Ret` (opcode 18): `incpc` pops the stack into `val`, and then — exactly
as the source reads — computes `a = getValueOrReg(val)` followed by
`pc = getValueOrReg(a)`: the popped value is resolved twice. -/
def execRet (s : VMState) : Except VMError VMState := do
  let vs ← popStack s.stack
  let a ← getValueOrReg s.registers vs.1
  let t ← getValueOrReg s.registers a
  return { s with stack := vs.2, pc := t }

/-- `Out` (opcode 19): `sys.stdout.write(chr(resolve(a)))`; `chr` raises
`ValueError` above `0x10FFFF`.  Advance 2. -/
def execOut (s : VMState) (a : Nat) : Except VMError VMState := do
  let v ← getValueOrReg s.registers a
  if v < 1114112 then
    return { s with output := s.output ++ [v], pc := s.pc + 2 }
  else .error (.chrValueError v)

/-- `In` (opcode 20): `setRegister(a, ord(stdin))` where `stdin` is the
line-buffered property; the raw character code is stored.  Advance 2. -/
def execIn (s : VMState) (a : Nat) : Except VMError VMState := do
  let t ← stdinNext s.stdinBuf s.stdinLines
  let r ← setRegister s.registers a t.1
  return { s with registers := r, stdinBuf := t.2.1, stdinLines := t.2.2, pc := s.pc + 2 }

/-- `Noop` (opcode 21): no effect, default advance by 1. -/
def execNoop (s : VMState) : Except VMError VMState :=
  .ok { s with pc := s.pc + 1 }

/-- The `ARGS` declared by each registered `Instruction` subclass, indexed by
`OPCODE`; `none` for opcodes absent from the registry. -/
def instrARGS : Nat → Option Nat
  | 0 => some 0
  | 1 => some 2
  | 2 => some 1
  | 3 => some 1
  | 4 => some 3
  | 5 => some 3
  | 6 => some 1
  | 7 => some 2
  | 8 => some 2
  | 9 => some 3
  | 10 => some 3
  | 11 => some 3
  | 12 => some 3
  | 13 => some 3
  | 14 => some 2
  | 15 => some 2
  | 16 => some 2
  | 17 => some 1
  | 18 => some 0
  | 19 => some 1
  | 20 => some 1
  | 21 => some 0
  | _ => none

/-- Dispatch of a decoded instruction: runs the instruction's `exec` effect
followed by its `incpc` advance rule, as the run loop does.  The catch-all
models `InvalidArgumentsError` from `Instruction.__init__` (unreachable via
`decode`, which reads exactly `ARGS` operand words). -/
def execInstr (s : VMState) (op : Nat) (args : List Nat) : Except VMError VMState :=
  match op with
  | 0 => match args with
    | [] => execHalt s
    | l => .error (.invalidArguments 0 l.length)
  | 1 => match args with
    | [a, b] => execSet s a b
    | l => .error (.invalidArguments 2 l.length)
  | 2 => match args with
    | [a] => execPush s a
    | l => .error (.invalidArguments 1 l.length)
  | 3 => match args with
    | [a] => execPop s a
    | l => .error (.invalidArguments 1 l.length)
  | 4 => match args with
    | [a, b, c] => execEq s a b c
    | l => .error (.invalidArguments 3 l.length)
  | 5 => match args with
    | [a, b, c] => execGt s a b c
    | l => .error (.invalidArguments 3 l.length)
  | 6 => match args with
    | [a] => execJmp s a
    | l => .error (.invalidArguments 1 l.length)
  | 7 => match args with
    | [a, b] => execJt s a b
    | l => .error (.invalidArguments 2 l.length)
  | 8 => match args with
    | [a, b] => execJf s a b
    | l => .error (.invalidArguments 2 l.length)
  | 9 => match args with
    | [a, b, c] => execAdd s a b c
    | l => .error (.invalidArguments 3 l.length)
  | 10 => match args with
    | [a, b, c] => execMult s a b c
    | l => .error (.invalidArguments 3 l.length)
  | 11 => match args with
    | [a, b, c] => execMod s a b c
    | l => .error (.invalidArguments 3 l.length)
  | 12 => match args with
    | [a, b, c] => execAnd s a b c
    | l => .error (.invalidArguments 3 l.length)
  | 13 => match args with
    | [a, b, c] => execOr s a b c
    | l => .error (.invalidArguments 3 l.length)
  | 14 => match args with
    | [a, b] => execNot s a b
    | l => .error (.invalidArguments 2 l.length)
  | 15 => match args with
    | [a, b] => execRmem s a b
    | l => .error (.invalidArguments 2 l.length)
  | 16 => match args with
    | [a, b] => execWmem s a b
    | l => .error (.invalidArguments 2 l.length)
  | 17 => match args with
    | [a] => execCall s a
    | l => .error (.invalidArguments 1 l.length)
  | 18 => match args with
    | [] => execRet s
    | l => .error (.invalidArguments 0 l.length)
  | 19 => match args with
    | [a] => execOut s a
    | l => .error (.invalidArguments 1 l.length)
  | 20 => match args with
    | [a] => execIn s a
    | l => .error (.invalidArguments 1 l.length)
  | 21 => match args with
    | [] => execNoop s
    | l => .error (.invalidArguments 0 l.length)
  | o => .error (.keyError o)

/-- `Instruction.decode` followed by `exec` and `incpc`: fetch the opcode word
at the pc, look it up in the registry (`KeyError` if absent), read the `ARGS`
trailing operand words only when `ARGS > 0`, then dispatch. -/
def step (s : VMState) : Except VMError VMState := do
  let opws ← readMemory s.memory s.pc 1
  match instrARGS (opws.headD 0) with
  | none => .error (.keyError (opws.headD 0))
  | some n =>
    if n = 0 then execInstr s (opws.headD 0) []
    else do
      let args ← readMemory s.memory (s.pc + 1) n
      execInstr s (opws.headD 0) args

/-- `VirtualMachine.run`: `while self.running: decode; exec; incpc`, with
explicit fuel since the loop need not terminate.  Returns the last fully
completed state together with the error, if any, that aborted the loop
(`none` when the loop exited normally or the fuel ran out). -/
def run (fuel : Nat) (s : VMState) : VMState × Option VMError :=
  match fuel with
  | 0 => (s, none)
  | fuel + 1 =>
    if s.running then
      match step s with
      | .ok t => run fuel t
      | .error e => (s, some e)
    else (s, none)

/-- The `try/except` block of `__main__`: a normal return from `main` exits 0,
any uncaught exception is logged and the process exits `-1` (non-zero). -/
def mainExit (image : List Nat) (input : List (List Nat)) (fuel : Nat) : Int :=
  match (run fuel (initVM image input)).2 with
  | none => 0
  | some _ => -1


/-! ## Helper lemmas for destructuring `Except` computations -/

theorem bindE_ok {α β : Type} {x : Except VMError α} {f : α → Except VMError β} {b : β} :
    (x >>= f) = .ok b ↔ ∃ a, x = .ok a ∧ f a = .ok b := by
  cases x <;> simp [Bind.bind, Except.bind]

theorem pureE_ok {α : Type} {a b : α} : (pure a : Except VMError α) = .ok b ↔ a = b := by
  simp [pure, Except.pure]

/-! ## The word-range invariant (claim C2) -/

/-- All 8 registers hold words in `[0, 32767]`. -/
abbrev RegsBounded (r : Registers) : Prop :=
  r.r0 ≤ 32767 ∧ r.r1 ≤ 32767 ∧ r.r2 ≤ 32767 ∧ r.r3 ≤ 32767 ∧
  r.r4 ≤ 32767 ∧ r.r5 ≤ 32767 ∧ r.r6 ≤ 32767 ∧ r.r7 ≤ 32767

/-- All memory words lie in `[0, 32767]`. -/
abbrev MemBounded (m : List Nat) : Prop := ∀ w ∈ m, w ≤ 32767

/-- All pending and upcoming input character codes lie in `[0, 32767]`. -/
abbrev InputBounded (buf : List Nat) (lines : List (List Nat)) : Prop :=
  (∀ c ∈ buf, c ≤ 32767) ∧ ∀ l ∈ lines, ∀ c ∈ l, c ≤ 32767

/-- The inductive invariant: registers, memory and input all word-bounded. -/
abbrev Inv (s : VMState) : Prop :=
  RegsBounded s.registers ∧ MemBounded s.memory ∧ InputBounded s.stdinBuf s.stdinLines

theorem getValueOrReg_ok_le {r : Registers} {w v : Nat}
    (hr : RegsBounded r) (h : getValueOrReg r w = .ok v) : v ≤ 32767 := by
  unfold getValueOrReg at h
  unfold RegsBounded at hr
  split_ifs at h <;> simp_all

theorem setRegister_ok_bounded {r r1 : Registers} {reg v : Nat}
    (h : setRegister r reg v = .ok r1) (hr : RegsBounded r) (hv : v ≤ 32767) :
    RegsBounded r1 := by
  unfold setRegister at h
  unfold RegsBounded at hr ⊢
  split_ifs at h <;> cases h <;> simp_all

theorem readMemory_ok_mem {m ws : List Nat} {a n w : Nat}
    (h : readMemory m a n = .ok ws) (hw : w ∈ ws) : w ∈ m := by
  unfold readMemory at h
  split_ifs at h <;> simp_all
  subst h
  exact List.drop_subset a m (List.take_subset n _ hw)

theorem writeMemory_ok_bounded {m m1 : List Nat} {a v : Nat}
    (h : writeMemory m a v = .ok m1) (hm : MemBounded m) (hv : v ≤ 32767) :
    MemBounded m1 := by
  unfold writeMemory at h
  unfold MemBounded at hm ⊢
  split_ifs at h <;> cases h
  intro w hw
  have hw1 : w ∈ m.take a ∨ w = v ∨ w ∈ m.drop (a + 1) := by
    simpa [List.mem_append] using hw
  rcases hw1 with h1 | h2 | h3
  · exact hm w (List.take_subset a m h1)
  · omega
  · exact hm w (List.drop_subset (a + 1) m h3)

theorem stdinNext_ok_bounded {buf buf1 : List Nat} {lines lines1 : List (List Nat)} {c : Nat}
    (h : stdinNext buf lines = .ok (c, buf1, lines1))
    (hi : InputBounded buf lines) :
    c ≤ 32767 ∧ InputBounded buf1 lines1 := by
  unfold InputBounded at hi ⊢
  obtain ⟨hbuf, hlines⟩ := hi
  unfold stdinNext at h
  rcases buf with _ | ⟨c0, rest⟩
  · rcases lines with _ | ⟨l, ls⟩
    · simp at h
    · rcases l with _ | ⟨c1, t⟩
      · simp at h
      · simp only [if_pos rfl, Except.ok.injEq, Prod.mk.injEq] at h
        obtain ⟨rfl, rfl, rfl⟩ := h
        have hl := hlines (c :: buf1) (by simp)
        refine ⟨hl c (by simp), ?_, ?_⟩
        · intro x hx; exact hl x (by simp [hx])
        · intro l2 hl2; exact hlines l2 (by simp [hl2])
  · simp only [List.cons_ne_nil, if_neg, Except.ok.injEq, Prod.mk.injEq,
      reduceCtorEq, reduceIte] at h
    obtain ⟨rfl, rfl, rfl⟩ := h
    refine ⟨hbuf c0 (by simp), ?_, hlines⟩
    intro x hx; exact hbuf x (by simp [hx])


/-! ## Preservation of the invariant by each instruction -/

theorem execHalt_inv {s s1 : VMState} (hI : Inv s) (h : execHalt s = .ok s1) : Inv s1 := by
  unfold execHalt at h
  cases h
  exact hI

theorem execNoop_inv {s s1 : VMState} (hI : Inv s) (h : execNoop s = .ok s1) : Inv s1 := by
  unfold execNoop at h
  cases h
  exact hI

theorem execSet_inv {s s1 : VMState} {a b : Nat} (hI : Inv s) (h : execSet s a b = .ok s1) :
    Inv s1 := by
  obtain ⟨hR, hM, hIn⟩ := hI
  unfold execSet at h
  rw [bindE_ok] at h; obtain ⟨v, hv, h⟩ := h
  rw [bindE_ok] at h; obtain ⟨r, hr, h⟩ := h
  rw [pureE_ok] at h; subst h
  exact ⟨setRegister_ok_bounded hr hR (getValueOrReg_ok_le hR hv), hM, hIn⟩

theorem execPush_inv {s s1 : VMState} {a : Nat} (hI : Inv s) (h : execPush s a = .ok s1) :
    Inv s1 := by
  obtain ⟨hR, hM, hIn⟩ := hI
  unfold execPush at h
  rw [bindE_ok] at h; obtain ⟨v, hv, h⟩ := h
  rw [pureE_ok] at h; subst h
  exact ⟨hR, hM, hIn⟩

theorem execPop_inv {s s1 : VMState} {a : Nat} (hI : Inv s) (h : execPop s a = .ok s1) :
    Inv s1 := by
  obtain ⟨hR, hM, hIn⟩ := hI
  unfold execPop at h
  rw [bindE_ok] at h; obtain ⟨vs, hvs, h⟩ := h
  rw [bindE_ok] at h; obtain ⟨w, hw, h⟩ := h
  rw [bindE_ok] at h; obtain ⟨r, hr, h⟩ := h
  rw [pureE_ok] at h; subst h
  exact ⟨setRegister_ok_bounded hr hR (getValueOrReg_ok_le hR hw), hM, hIn⟩

theorem execEq_inv {s s1 : VMState} {a b c : Nat} (hI : Inv s) (h : execEq s a b c = .ok s1) :
    Inv s1 := by
  obtain ⟨hR, hM, hIn⟩ := hI
  unfold execEq at h
  rw [bindE_ok] at h; obtain ⟨vb, hvb, h⟩ := h
  rw [bindE_ok] at h; obtain ⟨vc, hvc, h⟩ := h
  rw [bindE_ok] at h; obtain ⟨r, hr, h⟩ := h
  rw [pureE_ok] at h; subst h
  refine ⟨setRegister_ok_bounded hr hR ?_, hM, hIn⟩
  split <;> omega

theorem execGt_inv {s s1 : VMState} {a b c : Nat} (hI : Inv s) (h : execGt s a b c = .ok s1) :
    Inv s1 := by
  obtain ⟨hR, hM, hIn⟩ := hI
  unfold execGt at h
  rw [bindE_ok] at h; obtain ⟨vb, hvb, h⟩ := h
  rw [bindE_ok] at h; obtain ⟨vc, hvc, h⟩ := h
  rw [bindE_ok] at h; obtain ⟨r, hr, h⟩ := h
  rw [pureE_ok] at h; subst h
  refine ⟨setRegister_ok_bounded hr hR ?_, hM, hIn⟩
  split <;> omega

theorem execJmp_inv {s s1 : VMState} {a : Nat} (hI : Inv s) (h : execJmp s a = .ok s1) :
    Inv s1 := by
  obtain ⟨hR, hM, hIn⟩ := hI
  unfold execJmp at h
  rw [bindE_ok] at h; obtain ⟨t, ht, h⟩ := h
  rw [pureE_ok] at h; subst h
  exact ⟨hR, hM, hIn⟩

theorem execJt_inv {s s1 : VMState} {a b : Nat} (hI : Inv s) (h : execJt s a b = .ok s1) :
    Inv s1 := by
  obtain ⟨hR, hM, hIn⟩ := hI
  unfold execJt at h
  rw [bindE_ok] at h; obtain ⟨va, hva, h⟩ := h
  split at h
  · rw [bindE_ok] at h; obtain ⟨t, ht, h⟩ := h
    rw [pureE_ok] at h; subst h
    exact ⟨hR, hM, hIn⟩
  · rw [pureE_ok] at h; subst h
    exact ⟨hR, hM, hIn⟩

theorem execJf_inv {s s1 : VMState} {a b : Nat} (hI : Inv s) (h : execJf s a b = .ok s1) :
    Inv s1 := by
  obtain ⟨hR, hM, hIn⟩ := hI
  unfold execJf at h
  rw [bindE_ok] at h; obtain ⟨va, hva, h⟩ := h
  split at h
  · rw [bindE_ok] at h; obtain ⟨t, ht, h⟩ := h
    rw [pureE_ok] at h; subst h
    exact ⟨hR, hM, hIn⟩
  · rw [pureE_ok] at h; subst h
    exact ⟨hR, hM, hIn⟩

theorem execAdd_inv {s s1 : VMState} {a b c : Nat} (hI : Inv s) (h : execAdd s a b c = .ok s1) :
    Inv s1 := by
  obtain ⟨hR, hM, hIn⟩ := hI
  unfold execAdd at h
  rw [bindE_ok] at h; obtain ⟨vb, hvb, h⟩ := h
  rw [bindE_ok] at h; obtain ⟨vc, hvc, h⟩ := h
  rw [bindE_ok] at h; obtain ⟨r, hr, h⟩ := h
  rw [pureE_ok] at h; subst h
  refine ⟨setRegister_ok_bounded hr hR ?_, hM, hIn⟩
  have h32 : (2 : Nat) ^ 15 = 32768 := by norm_num
  rw [h32]; omega

theorem execMult_inv {s s1 : VMState} {a b c : Nat} (hI : Inv s) (h : execMult s a b c = .ok s1) :
    Inv s1 := by
  obtain ⟨hR, hM, hIn⟩ := hI
  unfold execMult at h
  rw [bindE_ok] at h; obtain ⟨vb, hvb, h⟩ := h
  rw [bindE_ok] at h; obtain ⟨vc, hvc, h⟩ := h
  rw [bindE_ok] at h; obtain ⟨r, hr, h⟩ := h
  rw [pureE_ok] at h; subst h
  refine ⟨setRegister_ok_bounded hr hR ?_, hM, hIn⟩
  have h32 : (2 : Nat) ^ 15 = 32768 := by norm_num
  rw [h32]; omega

theorem execMod_inv {s s1 : VMState} {a b c : Nat} (hI : Inv s) (h : execMod s a b c = .ok s1) :
    Inv s1 := by
  obtain ⟨hR, hM, hIn⟩ := hI
  unfold execMod at h
  rw [bindE_ok] at h; obtain ⟨vb, hvb, h⟩ := h
  rw [bindE_ok] at h; obtain ⟨vc, hvc, h⟩ := h
  split at h
  · exact absurd h (by simp)
  · rw [bindE_ok] at h; obtain ⟨r, hr, h⟩ := h
    rw [pureE_ok] at h; subst h
    refine ⟨setRegister_ok_bounded hr hR ?_, hM, hIn⟩
    have := getValueOrReg_ok_le hR hvb
    have := Nat.mod_le vb vc
    omega

theorem execAnd_inv {s s1 : VMState} {a b c : Nat} (hI : Inv s) (h : execAnd s a b c = .ok s1) :
    Inv s1 := by
  obtain ⟨hR, hM, hIn⟩ := hI
  unfold execAnd at h
  rw [bindE_ok] at h; obtain ⟨vb, hvb, h⟩ := h
  rw [bindE_ok] at h; obtain ⟨vc, hvc, h⟩ := h
  rw [bindE_ok] at h; obtain ⟨r, hr, h⟩ := h
  rw [pureE_ok] at h; subst h
  refine ⟨setRegister_ok_bounded hr hR ?_, hM, hIn⟩
  have := getValueOrReg_ok_le hR hvb
  have : vb &&& vc ≤ vb := Nat.and_le_left
  omega

theorem execOr_inv {s s1 : VMState} {a b c : Nat} (hI : Inv s) (h : execOr s a b c = .ok s1) :
    Inv s1 := by
  obtain ⟨hR, hM, hIn⟩ := hI
  unfold execOr at h
  rw [bindE_ok] at h; obtain ⟨vb, hvb, h⟩ := h
  rw [bindE_ok] at h; obtain ⟨vc, hvc, h⟩ := h
  rw [bindE_ok] at h; obtain ⟨r, hr, h⟩ := h
  rw [pureE_ok] at h; subst h
  refine ⟨setRegister_ok_bounded hr hR ?_, hM, hIn⟩
  have hb := getValueOrReg_ok_le hR hvb
  have hc := getValueOrReg_ok_le hR hvc
  have hor : vb ||| vc < 2 ^ 15 :=
    Nat.or_lt_two_pow (by norm_num; omega) (by norm_num; omega)
  have h32 : (2 : Nat) ^ 15 = 32768 := by norm_num
  omega

theorem execNot_inv {s s1 : VMState} {a b : Nat} (hI : Inv s) (h : execNot s a b = .ok s1) :
    Inv s1 := by
  obtain ⟨hR, hM, hIn⟩ := hI
  unfold execNot at h
  rw [bindE_ok] at h; obtain ⟨vb, hvb, h⟩ := h
  rw [bindE_ok] at h; obtain ⟨r, hr, h⟩ := h
  rw [pureE_ok] at h; subst h
  exact ⟨setRegister_ok_bounded hr hR (Nat.sub_le _ _), hM, hIn⟩

theorem execRmem_inv {s s1 : VMState} {a b : Nat} (hI : Inv s) (h : execRmem s a b = .ok s1) :
    Inv s1 := by
  obtain ⟨hR, hM, hIn⟩ := hI
  unfold execRmem at h
  rw [bindE_ok] at h; obtain ⟨addr, haddr, h⟩ := h
  rw [bindE_ok] at h; obtain ⟨ws, hws, h⟩ := h
  rw [bindE_ok] at h; obtain ⟨r, hr, h⟩ := h
  rw [pureE_ok] at h; subst h
  refine ⟨setRegister_ok_bounded hr hR ?_, hM, hIn⟩
  cases ws with
  | nil => simp
  | cons w t => exact hM _ (readMemory_ok_mem hws (by simp))

theorem execWmem_inv {s s1 : VMState} {a b : Nat} (hI : Inv s) (h : execWmem s a b = .ok s1) :
    Inv s1 := by
  obtain ⟨hR, hM, hIn⟩ := hI
  unfold execWmem at h
  rw [bindE_ok] at h; obtain ⟨addr, haddr, h⟩ := h
  rw [bindE_ok] at h; obtain ⟨v, hv, h⟩ := h
  rw [bindE_ok] at h; obtain ⟨m, hm, h⟩ := h
  rw [pureE_ok] at h; subst h
  exact ⟨hR, writeMemory_ok_bounded hm hM (getValueOrReg_ok_le hR hv), hIn⟩

theorem execCall_inv {s s1 : VMState} {a : Nat} (hI : Inv s) (h : execCall s a = .ok s1) :
    Inv s1 := by
  obtain ⟨hR, hM, hIn⟩ := hI
  unfold execCall at h
  rw [bindE_ok] at h; obtain ⟨t, ht, h⟩ := h
  rw [pureE_ok] at h; subst h
  exact ⟨hR, hM, hIn⟩

theorem execRet_inv {s s1 : VMState} (hI : Inv s) (h : execRet s = .ok s1) : Inv s1 := by
  obtain ⟨hR, hM, hIn⟩ := hI
  unfold execRet at h
  rw [bindE_ok] at h; obtain ⟨vs, hvs, h⟩ := h
  rw [bindE_ok] at h; obtain ⟨a, ha, h⟩ := h
  rw [bindE_ok] at h; obtain ⟨t, ht, h⟩ := h
  rw [pureE_ok] at h; subst h
  exact ⟨hR, hM, hIn⟩

theorem execOut_inv {s s1 : VMState} {a : Nat} (hI : Inv s) (h : execOut s a = .ok s1) :
    Inv s1 := by
  obtain ⟨hR, hM, hIn⟩ := hI
  unfold execOut at h
  rw [bindE_ok] at h; obtain ⟨v, hv, h⟩ := h
  split at h
  · rw [pureE_ok] at h; subst h
    exact ⟨hR, hM, hIn⟩
  · exact absurd h (by simp)

theorem execIn_inv {s s1 : VMState} {a : Nat} (hI : Inv s) (h : execIn s a = .ok s1) :
    Inv s1 := by
  obtain ⟨hR, hM, hIn⟩ := hI
  unfold execIn at h
  rw [bindE_ok] at h; obtain ⟨t, ht, h⟩ := h
  obtain ⟨c, buf1, lines1⟩ := t
  rw [bindE_ok] at h; obtain ⟨r, hr, h⟩ := h
  rw [pureE_ok] at h; subst h
  obtain ⟨hc, hIn1⟩ := stdinNext_ok_bounded ht hIn
  exact ⟨setRegister_ok_bounded hr hR hc, hM, hIn1⟩

set_option maxHeartbeats 1000000 in
theorem execInstr_inv {s s1 : VMState} {op : Nat} {args : List Nat}
    (hI : Inv s) (h : execInstr s op args = .ok s1) : Inv s1 := by
  unfold execInstr at h
  repeat' split at h
  all_goals
    first
      | exact execHalt_inv hI h
      | exact execSet_inv hI h
      | exact execPush_inv hI h
      | exact execPop_inv hI h
      | exact execEq_inv hI h
      | exact execGt_inv hI h
      | exact execJmp_inv hI h
      | exact execJt_inv hI h
      | exact execJf_inv hI h
      | exact execAdd_inv hI h
      | exact execMult_inv hI h
      | exact execMod_inv hI h
      | exact execAnd_inv hI h
      | exact execOr_inv hI h
      | exact execNot_inv hI h
      | exact execRmem_inv hI h
      | exact execWmem_inv hI h
      | exact execCall_inv hI h
      | exact execRet_inv hI h
      | exact execOut_inv hI h
      | exact execIn_inv hI h
      | exact execNoop_inv hI h
      | exact Except.noConfusion h

theorem step_inv {s s1 : VMState} (hI : Inv s) (h : step s = .ok s1) : Inv s1 := by
  unfold step at h
  rw [bindE_ok] at h; obtain ⟨opws, hop, h⟩ := h
  split at h
  · exact Except.noConfusion h
  · split at h
    · exact execInstr_inv hI h
    · rw [bindE_ok] at h; obtain ⟨args, hargs, h⟩ := h
      exact execInstr_inv hI h

theorem run_inv {s : VMState} (fuel : Nat) (hI : Inv s) : Inv (run fuel s).1 := by
  induction fuel generalizing s with
  | zero => exact hI
  | succ n ih =>
    rw [run]
    by_cases hr : s.running = true
    · rw [if_pos hr]
      cases hstep : step s with
      | ok t => exact ih (step_inv hI hstep)
      | error e => exact hI
    · rw [if_neg hr]
      exact hI

theorem initVM_inv {image : List Nat} {input : List (List Nat)}
    (hm : ∀ w ∈ image, w ≤ 32767) (hi : ∀ l ∈ input, ∀ c ∈ l, c ≤ 32767) :
    Inv (initVM image input) :=
  ⟨by simp [initVM, Registers.init], hm, by simp [initVM], by simpa [initVM] using hi⟩


/-! ## Small reduction lemmas for `Except` binds -/

theorem ok_bind {α β : Type} (a : α) (f : α → Except VMError β) :
    (Except.ok a >>= f) = f a := rfl

theorem err_bind {α β : Type} (e : VMError) (f : α → Except VMError β) :
    ((Except.error e : Except VMError α) >>= f) = .error e := rfl

/-! ## Claim C1 -/

/-- Claim C1: `getValueOrReg` returns a word `w ≤ 32767` unchanged, returns the
current value of register `w - 32768` for `w ∈ [32768, 32775]`, and fails with
`InvalidValueError` for every other `w`.  The embedding makes `getValueOrReg` a
pure function of the register bank alone, matching the source method, which
only reads `self._registers` — so resolution cannot modify registers, memory,
stack, or the program counter. -/
theorem getValueOrReg_spec (r : Registers) (w : Nat) :
    (w ≤ 32767 → getValueOrReg r w = .ok w) ∧
    (32768 ≤ w → w ≤ 32775 → getValueOrReg r w = .ok (regSlot r (w - 32768))) ∧
    (32775 < w → getValueOrReg r w = .error (.invalidValue w)) := by
  refine ⟨fun h => ?_, fun h1 h2 => ?_, fun h => ?_⟩
  · unfold getValueOrReg; rw [if_pos h]
  · interval_cases w <;> rfl
  · unfold getValueOrReg
    split_ifs <;> first | rfl | omega

/-- Witness for C1: the three cases of `getValueOrReg_spec` evaluated at the
concrete register bank `⟨1,…,8⟩` and operands 5, 32771, and 99999. -/
theorem getValueOrReg_spec_witness :
    getValueOrReg ⟨1, 2, 3, 4, 5, 6, 7, 8⟩ 5 = .ok 5 ∧
    getValueOrReg ⟨1, 2, 3, 4, 5, 6, 7, 8⟩ 32771 = .ok (regSlot ⟨1, 2, 3, 4, 5, 6, 7, 8⟩ 3) ∧
    getValueOrReg ⟨1, 2, 3, 4, 5, 6, 7, 8⟩ 99999 = .error (.invalidValue 99999) :=
  ⟨(getValueOrReg_spec ⟨1, 2, 3, 4, 5, 6, 7, 8⟩ 5).1 (by decide),
   (getValueOrReg_spec ⟨1, 2, 3, 4, 5, 6, 7, 8⟩ 32771).2.1 (by decide) (by decide),
   (getValueOrReg_spec ⟨1, 2, 3, 4, 5, 6, 7, 8⟩ 99999).2.2 (by decide)⟩

/-! ## Claim C2 -/

/-- Counterexample to C2 as stated: on the image `[15, 32768, 3, 40000]`, one
step from the initial state (rmem r0 ← memory[3]) leaves register r0 holding
40000, outside `[0, 32767]`: `Rmem.exec` copies the raw 16-bit memory word into
the register with no re-normalisation. -/
theorem rmem_breaks_register_range_cex :
    step (initVM [15, 32768, 3, 40000] []) =
      .ok ⟨[15, 32768, 3, 40000], [], 3, ⟨40000, 0, 0, 0, 0, 0, 0, 0⟩, [], [], true, []⟩ ∧
    ¬ (40000 : Nat) ≤ 32767 :=
  ⟨rfl, by decide⟩

/-- Claim C2 (amended): provided every word of the loaded image and every
input character code lies in `[0, 32767]`, every state reachable from the
initial state keeps all 8 registers in `[0, 32767]`.  Without that proviso the
claim fails, because rmem stores the raw 16-bit memory word (see the
counterexample). -/
theorem registers_bounded_of_run (image : List Nat) (input : List (List Nat)) (fuel : Nat)
    (hm : ∀ w ∈ image, w ≤ 32767) (hi : ∀ l ∈ input, ∀ c ∈ l, c ≤ 32767) :
    RegsBounded ((run fuel (initVM image input)).1).registers :=
  (run_inv fuel (initVM_inv hm hi)).1

/-- Witness for C2 (amended): the bound evaluated after running the
out-then-halt image `[19, 65, 0]` with one pending input line. -/
theorem registers_bounded_of_run_witness :
    RegsBounded ((run 5 (initVM [19, 65, 0] [[104, 105, 10]])).1).registers :=
  registers_bounded_of_run [19, 65, 0] [[104, 105, 10]] 5 (by decide) (by decide)


/-! ## Claim C3 -/

/-- Counterexample to C3 as stated: on the image below, after 4 steps
(3 rmems load r0 = 32769, r1 = 32770, r2 = 6; push r0) the VM sits at the ret
at address 11 with stack `[32769]`.  A single resolution of the popped value
gives `resolve(32769) = r1 = 32770`, but the ret step actually sets the pc to
6 (= r2), because `Ret.incpc` resolves the popped value twice. -/
theorem ret_single_resolution_cex :
    run 4 (initVM [15, 32768, 13, 15, 32769, 14, 15, 32770, 15, 2, 32768, 18, 0,
        32769, 32770, 6] []) =
      (⟨[15, 32768, 13, 15, 32769, 14, 15, 32770, 15, 2, 32768, 18, 0, 32769, 32770, 6],
        [32769], 11, ⟨32769, 32770, 6, 0, 0, 0, 0, 0⟩, [], [], true, []⟩, none) ∧
    getValueOrReg ⟨32769, 32770, 6, 0, 0, 0, 0, 0⟩ 32769 = .ok 32770 ∧
    step ⟨[15, 32768, 13, 15, 32769, 14, 15, 32770, 15, 2, 32768, 18, 0, 32769, 32770, 6],
        [32769], 11, ⟨32769, 32770, 6, 0, 0, 0, 0, 0⟩, [], [], true, []⟩ =
      .ok ⟨[15, 32768, 13, 15, 32769, 14, 15, 32770, 15, 2, 32768, 18, 0, 32769, 32770, 6],
        [], 6, ⟨32769, 32770, 6, 0, 0, 0, 0, 0⟩, [], [], true, []⟩ ∧
    (6 : Nat) ≠ 32770 :=
  ⟨rfl, rfl, rfl, by decide⟩

/-- Claim C3 (amended): ret on a non-empty stack pops exactly one value `v` and
sets the pc to `getValueOrReg (getValueOrReg v)` — the popped value is resolved
twice, not once — with no other state change.  Whenever the first resolution
yields a value `≤ 32767` (in particular whenever all registers hold words in
`[0, 32767]`), the second resolution is the identity and the two coincide. -/
theorem ret_pops_and_double_resolves (s : VMState) (st : List Nat) (v a t : Nat)
    (hs : s.stack = st ++ [v])
    (h1 : getValueOrReg s.registers v = .ok a)
    (h2 : getValueOrReg s.registers a = .ok t) :
    execRet s = .ok { s with stack := st, pc := t } ∧ (a ≤ 32767 → t = a) := by
  constructor
  · have hp : popStack s.stack = .ok (v, st) := by
      rw [hs]; unfold popStack; simp
    simp [execRet, hp, h1, h2, ok_bind, pureE_ok]
  · intro ha
    unfold getValueOrReg at h2
    rw [if_pos ha] at h2
    exact (Except.ok.inj h2).symm

/-- Witness for C3 (amended): a ret with stack `[7]`; both resolutions of the
literal 7 are the identity, so the pc becomes 7 and the stack empties. -/
theorem ret_pops_and_double_resolves_witness :
    execRet ⟨[18], [7], 0, Registers.init, [], [], true, []⟩ =
      .ok ⟨[18], [], 7, Registers.init, [], [], true, []⟩ ∧
    ((7 : Nat) ≤ 32767 → (7 : Nat) = 7) :=
  ret_pops_and_double_resolves ⟨[18], [7], 0, Registers.init, [], [], true, []⟩
    [] 7 7 7 rfl rfl rfl

/-! ## Claim C4 -/

/-- Counterexample to C4 as stated: running the VM on
`[17, 9, 21, 21, 21, 19, 65, 18, 0]` emits no output at all and aborts with a
`struct.error`; the output is not the single character "A" (code 65). -/
theorem scenario4_cex :
    (run 10 (initVM [17, 9, 21, 21, 21, 19, 65, 18, 0] [])).1.output = [] ∧
    (run 10 (initVM [17, 9, 21, 21, 21, 19, 65, 18, 0] [])).2 = some .structError ∧
    ([] : List Nat) ≠ [65] :=
  ⟨rfl, rfl, by decide⟩

/-- Claim C4 (amended): on the image `[17, 9, 21, 21, 21, 19, 65, 18, 0]` the
call at address 0 pushes the return address 2 and jumps to its operand 9 — not
to 5 — and address 9 is outside the 9-word image, so the next fetch's
`struct.unpack` fails: the VM terminates with an error, still running, with
nothing written to the output sink. -/
theorem scenario4_actual :
    run 10 (initVM [17, 9, 21, 21, 21, 19, 65, 18, 0] []) =
      (⟨[17, 9, 21, 21, 21, 19, 65, 18, 0], [2], 9, Registers.init, [], [], true, []⟩,
       some .structError) :=
  rfl

/-! ## Claim C5 -/

/-- Claim C5, evaluated at the failing input (code-bug record): `setRegister`
with the out-of-range id 40000 does fail and the failure does propagate fatally
(non-zero exit), but the error raised is a `NameError` — the class
`InvalidRegisterError` named by the `raise` statement is never defined in
`vm.py` — not an invalid-register error carrying the register id context.
In-range ids (e.g. 32775) store the value as the claim says. -/
theorem setRegister_undefined_class_nameError :
    setRegister Registers.init 40000 1 = .error (.nameErrorInvalidRegister 40000) ∧
    setRegister Registers.init 32775 9 = .ok ⟨0, 0, 0, 0, 0, 0, 0, 9⟩ ∧
    (run 3 (initVM [1, 40000, 5, 0] [])).2 = some (.nameErrorInvalidRegister 40000) ∧
    mainExit [1, 40000, 5, 0] [] 3 = -1 :=
  ⟨rfl, rfl, rfl, rfl⟩


/-! ## Claim C6 -/

/-- Claim C6: with resolved operands `vb, vc ∈ [0, 32767]`, `Add.exec` stores
`(vb + vc) % 32768` and `Mult.exec` stores `(vb * vc) % 32768` into the
destination register, and both results lie in `[0, 32767]`. -/
theorem add_mult_mod32768 (s : VMState) (a b c vb vc : Nat) (ra rm : Registers)
    (hb : getValueOrReg s.registers b = .ok vb)
    (hc : getValueOrReg s.registers c = .ok vc)
    (hvb : vb ≤ 32767) (hvc : vc ≤ 32767)
    (hra : setRegister s.registers a ((vb + vc) % 32768) = .ok ra)
    (hrm : setRegister s.registers a ((vb * vc) % 32768) = .ok rm) :
    execAdd s a b c = .ok { s with registers := ra, pc := s.pc + 4 } ∧
    execMult s a b c = .ok { s with registers := rm, pc := s.pc + 4 } ∧
    (vb + vc) % 32768 ≤ 32767 ∧ (vb * vc) % 32768 ≤ 32767 := by
  have h32 : (2 : Nat) ^ 15 = 32768 := by norm_num
  refine ⟨?_, ?_, by omega, by omega⟩
  · unfold execAdd
    rw [hb, ok_bind, hc, ok_bind, h32, hra, ok_bind]
    rfl
  · unfold execMult
    rw [hb, ok_bind, hc, ok_bind, h32, hrm, ok_bind]
    rfl

/-- Witness for C6: `add r0, 1, 2` and `mult r0, 1, 2` on the initial bank. -/
theorem add_mult_mod32768_witness :
    execAdd (initVM [9] []) 32768 1 2 =
      .ok ⟨[9], [], 4, ⟨3, 0, 0, 0, 0, 0, 0, 0⟩, [], [], true, []⟩ ∧
    execMult (initVM [9] []) 32768 1 2 =
      .ok ⟨[9], [], 4, ⟨2, 0, 0, 0, 0, 0, 0, 0⟩, [], [], true, []⟩ ∧
    (1 + 2) % 32768 ≤ 32767 ∧ (1 * 2) % 32768 ≤ 32767 :=
  add_mult_mod32768 (initVM [9] []) 32768 1 2 1 2
    ⟨3, 0, 0, 0, 0, 0, 0, 0⟩ ⟨2, 0, 0, 0, 0, 0, 0, 0⟩
    rfl rfl (by decide) (by decide) rfl rfl

/-! ## Claim C7 -/

/-- Claim C7: for an address inside the loaded extent, `wmem a b` followed by
`rmem c a` (both `a` operands resolving to the same address, as they must,
since wmem leaves the registers untouched) stores `resolve(b)` into register
`c`, and reading `c` back through operand resolution yields that value. -/
theorem wmem_rmem_roundtrip (s : VMState) (a b c addr v : Nat) (s1 : VMState) (rc : Registers)
    (ha : getValueOrReg s.registers a = .ok addr)
    (hb : getValueOrReg s.registers b = .ok v)
    (haddr : addr < s.memory.length)
    (hv : v < 65536)
    (h1 : execWmem s a b = .ok s1)
    (hrc : setRegister s.registers c v = .ok rc) :
    execRmem s1 c a = .ok { s1 with registers := rc, pc := s1.pc + 3 } ∧
    getValueOrReg rc c = .ok v := by
  have hv16 : v < 2 ^ 16 := by norm_num; omega
  unfold execWmem at h1
  rw [ha, ok_bind, hb, ok_bind] at h1
  unfold writeMemory at h1
  rw [if_pos hv16, ok_bind, pureE_ok] at h1
  constructor
  · have hregs : s1.registers = s.registers := by rw [← h1]
    have hmem : s1.memory = s.memory.take addr ++ [v] ++ s.memory.drop (addr + 1) := by
      rw [← h1]
    have hlen : s1.memory.length = s.memory.length := by
      rw [hmem]
      simp [List.length_append, List.length_take, List.length_drop]
      omega
    have htake : (s.memory.take addr).length = addr :=
      List.length_take_of_le (le_of_lt haddr)
    have hdrop : s1.memory.drop addr = v :: s.memory.drop (addr + 1) := by
      rw [hmem, List.append_assoc, List.drop_left' htake]
      simp
    have hread : readMemory s1.memory addr 1 = .ok [v] := by
      unfold readMemory
      rw [if_neg (by norm_num), if_pos (by omega), hdrop]
      simp
    unfold execRmem
    rw [hregs, ha, ok_bind, hread, ok_bind]
    simp only [List.headD_cons]
    rw [hrc, ok_bind, pureE_ok]
  · unfold setRegister at hrc
    split_ifs at hrc with k1 k2 k3 k4 k5 k6 k7 k8
    · cases hrc; subst k1; simp [getValueOrReg]
    · cases hrc; subst k2; simp [getValueOrReg]
    · cases hrc; subst k3; simp [getValueOrReg]
    · cases hrc; subst k4; simp [getValueOrReg]
    · cases hrc; subst k5; simp [getValueOrReg]
    · cases hrc; subst k6; simp [getValueOrReg]
    · cases hrc; subst k7; simp [getValueOrReg]
    · cases hrc; subst k8; simp [getValueOrReg]

/-- Witness for C7: write 7 to address 1 of the two-word image `[0, 0]`, read
it back into r2. -/
theorem wmem_rmem_roundtrip_witness :
    execRmem ⟨[0, 7], [], 3, Registers.init, [], [], true, []⟩ 32770 1 =
      .ok ⟨[0, 7], [], 6, ⟨0, 0, 7, 0, 0, 0, 0, 0⟩, [], [], true, []⟩ ∧
    getValueOrReg ⟨0, 0, 7, 0, 0, 0, 0, 0⟩ 32770 = .ok 7 :=
  wmem_rmem_roundtrip ⟨[0, 0], [], 0, Registers.init, [], [], true, []⟩ 1 7 32770 1 7
    ⟨[0, 7], [], 3, Registers.init, [], [], true, []⟩ ⟨0, 0, 7, 0, 0, 0, 0, 0⟩
    rfl rfl (by decide) (by decide) rfl rfl

/-! ## Claim C8 -/

/-- Claim C8: `readMemory` fails with `InvalidReadError` exactly when the word
count is 0 or exceeds 32768, independently of the address (an out-of-image read
with an in-range count fails differently, with `struct.error`, so no
invalid-memory-access check guards `address + count`); when the count is in
range and the requested words lie inside the image it returns the `count`
consecutive words starting at `address`. -/
theorem readMemory_invalidRead_iff (m : List Nat) (address count : Nat) :
    (readMemory m address count = .error (.invalidRead count address) ↔
      count = 0 ∨ 32768 < count) ∧
    (count ≠ 0 → count ≤ 32768 → address + count ≤ m.length →
      readMemory m address count = .ok ((m.drop address).take count)) := by
  have h32 : (2 : Nat) ^ 15 = 32768 := by norm_num
  constructor
  · constructor
    · intro h
      unfold readMemory at h
      split_ifs at h with hc1 hc2 <;> simp_all
    · intro h
      unfold readMemory
      rw [if_pos (by rw [h32]; omega)]
  · intro h1 h2 h3
    unfold readMemory
    rw [if_neg (by rw [h32]; omega), if_pos h3]

/-- Witness for C8: a zero-count read fails as InvalidReadError even at an
out-of-range address, and an in-image read returns the slice. -/
theorem readMemory_invalidRead_iff_witness :
    readMemory [5] 7 0 = .error (.invalidRead 0 7) ∧
    readMemory [1, 2, 3] 1 2 = .ok [2, 3] :=
  ⟨(readMemory_invalidRead_iff [5] 7 0).1.mpr (Or.inl rfl),
   (readMemory_invalidRead_iff [1, 2, 3] 1 2).2 (by decide) (by decide) (by decide)⟩


/-! ## Claim C9 -/

/-- Claim C9: executing the pop opcode with an empty stack fails with the
stack-underflow error (Python raises `IndexError` from `list.pop` on the empty
list) in any such state; the error is not locally recovered — on the two-word
image `[3, 32768]` the run loop aborts with that error while the VM is still
in the running state (no clean halt), and the top-level handler turns it into
the non-zero process exit `-1`. -/
theorem pop_empty_stack_fatal (s : VMState) (a : Nat) (hs : s.stack = []) :
    execPop s a = .error .stackUnderflow ∧
    run 5 (initVM [3, 32768] []) = (initVM [3, 32768] [], some .stackUnderflow) ∧
    (run 5 (initVM [3, 32768] [])).1.running = true ∧
    mainExit [3, 32768] [] 5 = -1 ∧ ((-1 : Int) ≠ 0) := by
  refine ⟨?_, rfl, rfl, rfl, by decide⟩
  unfold execPop
  rw [hs]
  rfl

/-- Witness for C9: the pop at pc 0 of the image `[3, 32768]` executed in the
initial (empty-stack) state. -/
theorem pop_empty_stack_fatal_witness :
    execPop (initVM [3, 32768] []) 32768 = .error .stackUnderflow ∧
    run 5 (initVM [3, 32768] []) = (initVM [3, 32768] [], some .stackUnderflow) ∧
    (run 5 (initVM [3, 32768] [])).1.running = true ∧
    mainExit [3, 32768] [] 5 = -1 ∧ ((-1 : Int) ≠ 0) :=
  pop_empty_stack_fatal (initVM [3, 32768] []) 32768 rfl

/-! ## Claim C10 -/

/-- Claim C10: when the pending input buffer is empty and the upstream source
is exhausted (`readline` returns the empty string), the in opcode fails with
`IndexError` from `''[0]`: the step produces no successor state at all, so no
character is delivered, no register is written, and the VM does not halt
cleanly. -/
theorem in_eof_fails (s : VMState) (a : Nat)
    (hbuf : s.stdinBuf = []) (hlines : s.stdinLines = []) :
    execIn s a = .error .indexError := by
  unfold execIn
  rw [hbuf, hlines]
  rfl

/-- Witness for C10: the in opcode at pc 0 of `[20, 32768]` with no input. -/
theorem in_eof_fails_witness :
    execIn (initVM [20, 32768] []) 32768 = .error .indexError :=
  in_eof_fails (initVM [20, 32768] []) 32768 rfl rfl

end SynacorVM
